import Mathlib

/-!
A shallow embedding of the SSO connector library
(packages/core/src/libraries/sso-connector.ts) together with proofs about
its operations.

Modelling conventions:
- The asynchronous repository and application-lookup collaborators are
  passed in as explicit arguments; a fallible operation returns
  `Except RequestError`.
- A JS object whose keys matter only as an ordered key/value collection is
  modelled as `List (String × String)` in insertion order; a JS object
  carries each key at most once, which appears as `Nodup` hypotheses on the
  key list where it matters.
- `undefined`/`null` is `Option.none`; JS truthiness of an optional string
  (`undefined`, `null` and `""` are falsy) is the function `jsTruthy`.
- A repository write is modelled by returning the exact record handed to
  the repository insert/update primitive.
- `URLSearchParams` percent-encoding/serialisation is not modelled; the
  synthesized URL is kept in structured form (base plus decoded key/value
  pairs in insertion order), which is what the claims quantify over.
-/

/-- An error raised by the core: an error code plus an HTTP status
(`RequestError`; the status defaults to 400 in the source). -/
structure RequestError where
  code : String
  status : Nat
deriving DecidableEq

/-- `new RequestError(\x7b code: 'connector.not_found', status: 404 \x7d)`. -/
def connectorNotFoundError : RequestError :=
  { code := "connector.not_found", status := 404 }

/-- `new RequestError('connector.saml_idp_initiated_auth_invalid_application_type')`. -/
def invalidApplicationTypeError : RequestError :=
  { code := "connector.saml_idp_initiated_auth_invalid_application_type", status := 400 }

/-- `new RequestError('oidc.invalid_redirect_uri')`. -/
def invalidRedirectUriError : RequestError :=
  { code := "oidc.invalid_redirect_uri", status := 400 }

/-- Modelled from the spec: the application-lookup collaborator
(`applications.findApplicationById`, not part of the given sources) fails
with a not-found error when the id resolves to no application. -/
def applicationNotFoundError : RequestError :=
  { code := "entity.not_found", status := 404 }

/-- The application types of the schemas package (`ApplicationType`). -/
inductive ApplicationType where
  | native
  | spa
  | traditional
  | machineToMachine
  | protectedApp
deriving DecidableEq

structure OidcClientMetadata where
  redirectUris : List String
deriving DecidableEq

/-- An application record as consumed here: its type, the first-party /
third-party flag and the registered redirect URIs. -/
structure Application where
  id : String
  type : ApplicationType
  isThirdParty : Bool
  oidcClientMetadata : OidcClientMetadata
deriving DecidableEq

/-- The application-lookup collaborator: may fail with a `RequestError`. -/
abbrev FindApplication := String → Except RequestError Application

/-- Modelled from the spec: the application lookup over a concrete table of
applications; it fails not-found when the id is absent. -/
def findApplicationByIdIn (apps : List Application) : FindApplication := fun appId =>
  match apps.find? (fun a => a.id == appId) with
  | some a => Except.ok a
  | none => Except.error applicationNotFoundError

/-- A provider capability as used here: the config schema validator
(`factory.configGuard.safeParse(config).success`).  The provider-specific
config payload is kept opaque as a `String`. -/
structure SsoConnectorFactory where
  configGuard : String → Bool

/-- Modelled from the spec: the connector registry
(`ssoConnectorFactories`, registered at process start) maps a provider name
to its capability when one is registered. -/
abbrev SsoConnectorRegistry := String → Option SsoConnectorFactory

/-- A persisted SSO connector record. -/
structure SsoConnector where
  id : String
  providerName : String
  config : String
  domains : List String
deriving DecidableEq

/-- Modelled from the spec: `isSupportedSsoConnector` (src/sso/utils.ts, not
part of the given sources) holds iff the connector's providerName has a
registered capability. -/
def isSupportedSsoConnector (reg : SsoConnectorRegistry) (connector : SsoConnector) : Bool :=
  (reg connector.providerName).isSome

/-- JS truthiness of a possibly-absent string: `undefined`, `null` and the
empty string are falsy. -/
def jsTruthy : Option String → Bool
  | none => false
  | some s => !(s == "")

/-- The `authParameters` object of an IdP-initiated auth config, after the
source's destructuring `\x7b scope, ...extraParams \x7d`: the optional
`scope` entry and the remaining entries in object insertion order. -/
structure AuthParameters where
  scope : Option String
  extras : List (String × String)
deriving DecidableEq

/-- `SsoConnectorIdpInitiatedAuthConfig` (also the create payload with the
auto-set fields omitted). -/
structure SsoConnectorIdpInitiatedAuthConfig where
  connectorId : String
  defaultApplicationId : String
  redirectUri : Option String
  authParameters : AuthParameters
deriving DecidableEq

/-- The optional `conditions` element of a verified SAML assertion. -/
structure SamlAssertionConditions where
  notBefore : Option String
  notOnOrAfter : Option String
deriving DecidableEq

/-- The verified SAML assertion content: an opaque payload plus the
optional conditions element. -/
structure SsoSamlAssertionContent where
  payload : String
  conditions : Option SamlAssertionConditions
deriving DecidableEq

/-- The session record handed to
`ssoConnectors.insertIdpInitiatedSamlSsoSession`. -/
structure IdpInitiatedSamlSsoSession where
  id : String
  connectorId : String
  assertionContent : SsoSamlAssertionContent
  expiresAt : Int
deriving DecidableEq

/-- Modelled from the spec: the default session TTL constant
(`defaultIdPInitiatedSamlSsoSessionTtl` of src/constants, not part of the
given sources): 10 minutes in milliseconds. -/
def defaultIdPInitiatedSamlSsoSessionTtl : Int := 10 * 60 * 1000

/-! ### Connector discovery -/

/-- `getSsoConnectors(limit?, offset?)`: destructures the repository's
`findAll` response `(count, entities)` and filters the page down to the
supported connectors, keeping the unfiltered count.  The repository
response is passed in explicitly. -/
def getSsoConnectors (reg : SsoConnectorRegistry) (count : Nat)
    (entities : List SsoConnector) : Nat × List SsoConnector :=
  (count, entities.filter (fun connector => isSupportedSsoConnector reg connector))

/-- `getAvailableSsoConnectors()`: fetches all connectors through
`getSsoConnectors()` (the repository `findAll` with no pagination returns
the full list and its count) and keeps those with a schema-valid config and
a non-empty domain list.  The source indexes `ssoConnectorFactories`
unconditionally; the lookup cannot miss there because the surrounding list
only holds supported connectors, and the `Option.map ... |>.getD false`
below is that same lookup made total. -/
def getAvailableSsoConnectors (reg : SsoConnectorRegistry)
    (entities : List SsoConnector) : List SsoConnector :=
  let connectors := (getSsoConnectors reg entities.length entities).2
  connectors.filter (fun connector =>
    let hasValidConfig :=
      ((reg connector.providerName).map (fun factory => factory.configGuard connector.config)).getD false
    let hasValidDomains := decide (connector.domains.length > 0)
    hasValidConfig && hasValidDomains)

/-- Modelled from the spec: the repository `findById`, surfaced as a
not-found failure when no record exists for the id. -/
def ssoConnectorsFindById (store : List SsoConnector) (id : String) :
    Except RequestError SsoConnector :=
  match store.find? (fun c => c.id == id) with
  | some c => Except.ok c
  | none => Except.error connectorNotFoundError

/-- `getSsoConnectorById(id)`: looks the record up and then asserts that it
is supported, raising the 404 `connector.not_found` error otherwise. -/
def getSsoConnectorById (reg : SsoConnectorRegistry) (store : List SsoConnector)
    (id : String) : Except RequestError SsoConnector :=
  match ssoConnectorsFindById store id with
  | Except.error e => Except.error e
  | Except.ok connector =>
    if isSupportedSsoConnector reg connector then Except.ok connector
    else Except.error connectorNotFoundError

/-! ### IdP-initiated auth config lifecycle -/

/-- `createSsoConnectorIdpInitiatedAuthConfig(data)`: resolves the default
application (propagating its not-found failure), asserts that it is a
first-party traditional application, then hands `data` to the repository
insert (the returned value is that insert payload). -/
def createSsoConnectorIdpInitiatedAuthConfig (findApplicationById : FindApplication)
    (data : SsoConnectorIdpInitiatedAuthConfig) :
    Except RequestError SsoConnectorIdpInitiatedAuthConfig :=
  match findApplicationById data.defaultApplicationId with
  | Except.error e => Except.error e
  | Except.ok application =>
    if application.type == ApplicationType.traditional && !application.isThirdParty then
      Except.ok data
    else Except.error invalidApplicationTypeError

/-- The partial update payload: each field is present or absent. -/
structure IdpInitiatedAuthConfigSetFields where
  defaultApplicationId : Option String
  redirectUri : Option String
  authParameters : Option AuthParameters
deriving DecidableEq

/-- The update command handed to
`ssoConnectors.updateIdpInitiatedAuthConfig(\x7b set, where, jsonbMode \x7d)`. -/
structure IdpInitiatedAuthConfigUpdateCmd where
  set : IdpInitiatedAuthConfigSetFields
  whereConnectorId : String
  jsonbMode : String
deriving DecidableEq

/-- `updateSsoConnectorIdpInitiatedAuthConfig(connectorId, set)`: the
source guards the application validation with `if (defaultApplicationId)`,
a JS truthiness test, so the validation runs only when the field is present
with a non-empty value; in every other case the repository update command
is issued directly. -/
def updateSsoConnectorIdpInitiatedAuthConfig (findApplicationById : FindApplication)
    (connectorId : String) (set : IdpInitiatedAuthConfigSetFields) :
    Except RequestError IdpInitiatedAuthConfigUpdateCmd :=
  let cmd : IdpInitiatedAuthConfigUpdateCmd :=
    { set := set, whereConnectorId := connectorId, jsonbMode := "replace" }
  match set.defaultApplicationId with
  | none => Except.ok cmd
  | some appId =>
    if appId == "" then Except.ok cmd
    else
      match findApplicationById appId with
      | Except.error e => Except.error e
      | Except.ok application =>
        if application.type == ApplicationType.traditional && !application.isThirdParty then
          Except.ok cmd
        else Except.error invalidApplicationTypeError

/-! ### SAML session creation -/

/-- `createIdpInitiatedSamlSsoSession(connectorId, assertionContent)`:
computes the expiry and returns the record handed to the repository
insert.  The generated id, the current time and the `new Date(string)`
parser (`dateValueOf`, yielding epoch milliseconds) are environment inputs
passed explicitly.  The source selects the expiry with
`conditions?.notOnOrAfter ? new Date(...) : new Date(now + ttl)`, a JS
truthiness test, so an empty-string `notOnOrAfter` also falls back to the
default TTL. -/
def createIdpInitiatedSamlSsoSession (dateValueOf : String → Int) (generatedId : String)
    (now : Int) (connectorId : String) (assertionContent : SsoSamlAssertionContent) :
    IdpInitiatedSamlSsoSession :=
  let expiresAt : Int :=
    match assertionContent.conditions.bind (fun c => c.notOnOrAfter) with
    | some t =>
      if t == "" then now + defaultIdPInitiatedSamlSsoSessionTtl else dateValueOf t
    | none => now + defaultIdPInitiatedSamlSsoSessionTtl
  { id := generatedId, connectorId := connectorId,
    assertionContent := assertionContent, expiresAt := expiresAt }

/-! ### Sign-in URL synthesis -/

/-- Modelled from the spec: the wire-contract query keys consumed from the
logto js SDK (`QueryKey`), not part of the given sources. -/
def queryKeyClientId : String := "client_id"

def queryKeyRedirectUri : String := "redirect_uri"

def queryKeyResponseType : String := "response_type"

def queryKeyPrompt : String := "prompt"

def queryKeyDirectSignIn : String := "direct_sign_in"

def queryKeyScope : String := "scope"

/-- Modelled from the spec: `Prompt.Login` of the logto js SDK. -/
def promptLogin : String := "login"

/-- Modelled from the spec: the reserved baseline scopes the platform
always requests (the scope constants behind `withReservedScopes` of the
logto js SDK). -/
def reservedScopes : List String := ["openid", "offline_access", "profile"]

/-- Duplicate removal keeping first occurrences, with an accumulator of the
keys already seen. -/
def dedupFrom (seen : List String) : List String → List String
  | [] => []
  | s :: rest =>
    if s ∈ seen then dedupFrom seen rest else s :: dedupFrom (s :: seen) rest

/-- Joining scope tokens with single spaces. -/
def joinWithSpace : List String → String
  | [] => ""
  | [s] => s
  | s :: rest => s ++ " " ++ joinWithSpace rest

/-- Modelled from the spec: `withReservedScopes` of the logto js SDK (not
part of the given sources) prepends the reserved scopes to the requested
tokens, removes duplicates keeping first occurrences, and joins the result
with single spaces. -/
def withReservedScopesTokens (scopes : List String) : List String :=
  dedupFrom [] (reservedScopes ++ scopes)

/-- The final scope query value produced by the normalizer. -/
def withReservedScopes (scopes : List String) : String :=
  joinWithSpace (withReservedScopesTokens scopes)

/-- `String.prototype.split` on the one-character separator `' '` (no
regex): splits at every space, keeping empty fragments, and yields `[""]`
on the empty string. -/
def splitOnSpaceChars : List Char → List Char → List String
  | [], acc => [String.mk acc.reverse]
  | c :: rest, acc =>
    if c = ' ' then String.mk acc.reverse :: splitOnSpaceChars rest []
    else splitOnSpaceChars rest (c :: acc)

/-- `scope?.split(' ') ?? []`: the requested scope string split on single
spaces, or the empty token list when no scope is configured. -/
def requestedScopeTokens : Option String → List String
  | none => []
  | some s => splitOnSpaceChars s.data []

/-- One step of the JS object-spread merge that builds the
`URLSearchParams` init object: assigning key `k` overwrites the value in
place when the key is already present and appends the entry otherwise. -/
def objectSpreadInsert (entries : List (String × String)) (k v : String) :
    List (String × String) :=
  if entries.any (fun p => p.1 == k) then
    entries.map (fun p => if p.1 == k then (p.1, v) else p)
  else entries ++ [(k, v)]

/-- The five standard entries of the sign-in query, in the insertion order
of the source's object literal. -/
def standardSignInQuery (authConfig : SsoConnectorIdpInitiatedAuthConfig)
    (redirectUri : String) : List (String × String) :=
  [(queryKeyClientId, authConfig.defaultApplicationId),
   (queryKeyRedirectUri, redirectUri),
   (queryKeyResponseType, "code"),
   (queryKeyPrompt, promptLogin),
   (queryKeyDirectSignIn, "sso" ++ ":" ++ authConfig.connectorId)]

/-- The synthesized sign-in URL: `<base>?<query>` kept in structured form,
the query as decoded key/value pairs in insertion order. -/
structure SignInUrl where
  base : String
  query : List (String × String)
deriving DecidableEq

/-- The redirect URI resolution of `getIdpInitiatedSamlSsoSignInUrl`:
`authConfig.redirectUri ?? trySafe(...)`.  The `??` is nullish
coalescing (only `null`/`undefined` fall through), `trySafe` maps any
failure of the wrapped application lookup to `undefined`, and
`redirectUris[0]` is `undefined` on an empty list. -/
def resolveRedirectUri (findApplicationById : FindApplication)
    (authConfig : SsoConnectorIdpInitiatedAuthConfig) : Option String :=
  match authConfig.redirectUri with
  | some r => some r
  | none =>
    match findApplicationById authConfig.defaultApplicationId with
    | Except.ok application => application.oidcClientMetadata.redirectUris.head?
    | Except.error _ => none

/-- `getIdpInitiatedSamlSsoSignInUrl(issuer, authConfig)`: resolves the
redirect URI, rejects a falsy result (`if (!redirectUri)` — `undefined`
and `""` alike), builds the query object from the five standard entries
spread together with the non-scope `authParameters`, appends the
normalized scope, and returns `<issuer>/auth` with that query. -/
def getIdpInitiatedSamlSsoSignInUrl (findApplicationById : FindApplication)
    (issuer : String) (authConfig : SsoConnectorIdpInitiatedAuthConfig) :
    Except RequestError SignInUrl :=
  match resolveRedirectUri findApplicationById authConfig with
  | none => Except.error invalidRedirectUriError
  | some redirectUri =>
    if redirectUri == "" then Except.error invalidRedirectUriError
    else
      let queryParameters :=
        authConfig.authParameters.extras.foldl
          (fun acc kv => objectSpreadInsert acc kv.1 kv.2)
          (standardSignInQuery authConfig redirectUri)
      let queryWithScope := queryParameters ++
        [(queryKeyScope, withReservedScopes (requestedScopeTokens authConfig.authParameters.scope))]
      Except.ok { base := issuer ++ "/auth", query := queryWithScope }

/-! ### Helper lemmas -/

theorem mem_dedupFrom (l : List String) :
    ∀ (seen : List String) (a : String), a ∈ dedupFrom seen l ↔ (a ∈ l ∧ a ∉ seen) := by
  induction l with
  | nil => intro seen a; simp [dedupFrom]
  | cons x xs ih =>
    intro seen a
    by_cases hx : x ∈ seen
    · rw [dedupFrom, if_pos hx, ih]
      constructor
      · rintro ⟨h1, h2⟩
        exact ⟨List.mem_cons_of_mem x h1, h2⟩
      · rintro ⟨h1, h2⟩
        rcases List.mem_cons.mp h1 with rfl | h1
        · exact absurd hx h2
        · exact ⟨h1, h2⟩
    · rw [dedupFrom, if_neg hx]
      constructor
      · intro h
        rcases List.mem_cons.mp h with rfl | h
        · exact ⟨List.mem_cons_self _ _, hx⟩
        · have h' := (ih (x :: seen) a).mp h
          exact ⟨List.mem_cons_of_mem x h'.1,
            fun hs => h'.2 (List.mem_cons_of_mem x hs)⟩
      · rintro ⟨h1, h2⟩
        by_cases hax : a = x
        · subst hax; exact List.mem_cons_self _ _
        · rcases List.mem_cons.mp h1 with rfl | h1
          · exact absurd rfl hax
          · refine List.mem_cons_of_mem x ((ih (x :: seen) a).mpr ⟨h1, ?_⟩)
            intro hs
            rcases List.mem_cons.mp hs with rfl | hs
            · exact hax rfl
            · exact h2 hs

theorem nodup_dedupFrom (l : List String) :
    ∀ seen : List String, (dedupFrom seen l).Nodup := by
  induction l with
  | nil => intro seen; exact List.nodup_nil
  | cons x xs ih =>
    intro seen
    by_cases hx : x ∈ seen
    · rw [dedupFrom, if_pos hx]; exact ih seen
    · rw [dedupFrom, if_neg hx]
      refine List.Nodup.cons ?_ (ih (x :: seen))
      intro hmem
      exact ((mem_dedupFrom xs (x :: seen) x).mp hmem).2 (List.mem_cons_self _ _)

theorem mem_withReservedScopesTokens (scopes : List String) (a : String) :
    a ∈ withReservedScopesTokens scopes ↔ a ∈ reservedScopes ++ scopes := by
  rw [withReservedScopesTokens, mem_dedupFrom]
  simp

theorem nodup_withReservedScopesTokens (scopes : List String) :
    (withReservedScopesTokens scopes).Nodup :=
  nodup_dedupFrom _ []

theorem objectSpreadInsert_of_not_any (entries : List (String × String)) (k v : String)
    (h : entries.any (fun p => p.1 == k) = false) :
    objectSpreadInsert entries k v = entries ++ [(k, v)] := by
  rw [objectSpreadInsert, h]
  simp

theorem foldl_objectSpreadInsert_disjoint (extras : List (String × String)) :
    ∀ std : List (String × String),
      (extras.map Prod.fst).Nodup →
      (∀ p ∈ extras, ∀ q ∈ std, p.1 ≠ q.1) →
      extras.foldl (fun acc kv => objectSpreadInsert acc kv.1 kv.2) std = std ++ extras := by
  induction extras with
  | nil => intro std _ _; simp
  | cons kv rest ih =>
    obtain ⟨k, v⟩ := kv
    intro std hnd hdisj
    have hany : std.any (fun p => p.1 == k) = false := by
      rw [List.any_eq_false]
      intro q hq
      simp only [beq_iff_eq]
      exact fun hqe => hdisj (k, v) (List.mem_cons_self _ _) q hq hqe.symm
    rw [List.foldl_cons, objectSpreadInsert_of_not_any std k v hany]
    have hnd0 : (k :: rest.map Prod.fst).Nodup := by simpa using hnd
    have hnd' : (rest.map Prod.fst).Nodup := (List.nodup_cons.mp hnd0).2
    have hknotin : k ∉ rest.map Prod.fst := (List.nodup_cons.mp hnd0).1
    have hdisj' : ∀ p ∈ rest, ∀ q ∈ std ++ [(k, v)], p.1 ≠ q.1 := by
      intro p hp q hq
      rcases List.mem_append.mp hq with hq | hq
      · exact hdisj p (List.mem_cons_of_mem _ hp) q hq
      · rcases List.mem_singleton.mp hq with rfl
        intro hpk
        exact hknotin (List.mem_map.mpr ⟨p, hp, hpk⟩)
    rw [ih (std ++ [(k, v)]) hnd' hdisj', List.append_assoc]
    rfl

theorem lookup_map_overwrite (k v : String) :
    ∀ entries : List (String × String), entries.any (fun p => p.1 == k) = true →
      (entries.map (fun p => if p.1 == k then (p.1, v) else p)).lookup k = some v := by
  intro entries
  induction entries with
  | nil => intro h; simp at h
  | cons p rest ih =>
    obtain ⟨pk, pv⟩ := p
    intro h
    by_cases hp : pk = k
    · subst hp
      simp [List.lookup_cons]
    · have hrest : rest.any (fun p => p.1 == k) = true := by
        rcases (List.any_eq_true).mp h with ⟨q, hq, hqk⟩
        rcases List.mem_cons.mp hq with rfl | hq
        · exact absurd (beq_iff_eq.mp hqk) hp
        · exact (List.any_eq_true).mpr ⟨q, hq, hqk⟩
      have hbeq : (pk == k) = false := beq_eq_false_iff_ne.mpr hp
      have hbeq' : (k == pk) = false := beq_eq_false_iff_ne.mpr (Ne.symm hp)
      simp only [List.map_cons, hbeq, Bool.false_eq_true, if_false, List.lookup_cons, hbeq']
      exact ih hrest

theorem lookup_append_singleton_self (k v : String) :
    ∀ entries : List (String × String), entries.any (fun p => p.1 == k) = false →
      (entries ++ [(k, v)]).lookup k = some v := by
  intro entries
  induction entries with
  | nil => simp [List.lookup]
  | cons p rest ih =>
    intro h
    rw [List.any_cons, Bool.or_eq_false_iff] at h
    have hbeq' : (k == p.1) = false := by
      rw [beq_eq_false_iff_ne]
      exact fun hk => (beq_eq_false_iff_ne.mp h.1) hk.symm
    simp only [List.cons_append, List.lookup, hbeq']
    exact ih h.2

theorem lookup_objectSpreadInsert_self (entries : List (String × String)) (k v : String) :
    (objectSpreadInsert entries k v).lookup k = some v := by
  rw [objectSpreadInsert]
  cases hany : entries.any (fun p => p.1 == k) with
  | true => simp only [if_true]; exact lookup_map_overwrite k v entries hany
  | false => simp only [Bool.false_eq_true, if_false]; exact lookup_append_singleton_self k v entries hany

theorem lookup_map_overwrite_ne (k v a : String) (hne : a ≠ k) :
    ∀ entries : List (String × String),
      (entries.map (fun p => if p.1 == k then (p.1, v) else p)).lookup a = entries.lookup a := by
  intro entries
  induction entries with
  | nil => rfl
  | cons p rest ih =>
    obtain ⟨pk, pv⟩ := p
    by_cases hp : pk = k
    · have hbeq : (pk == k) = true := beq_iff_eq.mpr hp
      have habeq : (a == pk) = false := by
        rw [beq_eq_false_iff_ne]
        exact fun h => hne (h.trans hp)
      simp only [List.map_cons, hbeq, if_true, List.lookup_cons, habeq]
      exact ih
    · have hbeq : (pk == k) = false := beq_eq_false_iff_ne.mpr hp
      simp only [List.map_cons, hbeq, Bool.false_eq_true, if_false, List.lookup_cons]
      cases hab : (a == pk) with
      | true => rfl
      | false => exact ih

theorem lookup_append_singleton_ne (k v a : String) (hne : a ≠ k) :
    ∀ entries : List (String × String),
      (entries ++ [(k, v)]).lookup a = entries.lookup a := by
  intro entries
  induction entries with
  | nil =>
    have hbeq : (a == k) = false := beq_eq_false_iff_ne.mpr hne
    simp [List.lookup, hbeq]
  | cons p rest ih =>
    simp only [List.cons_append, List.lookup]
    cases hab : (a == p.1) with
    | true => rfl
    | false => exact ih

theorem lookup_objectSpreadInsert_ne (entries : List (String × String)) (k v a : String)
    (hne : a ≠ k) :
    (objectSpreadInsert entries k v).lookup a = entries.lookup a := by
  rw [objectSpreadInsert]
  cases hany : entries.any (fun p => p.1 == k) with
  | true => simp only [if_true]; exact lookup_map_overwrite_ne k v a hne entries
  | false => simp only [Bool.false_eq_true, if_false]; exact lookup_append_singleton_ne k v a hne entries

theorem lookup_foldl_objectSpreadInsert_of_not_mem (a : String) (extras : List (String × String)) :
    ∀ std : List (String × String), (∀ p ∈ extras, p.1 ≠ a) →
      (extras.foldl (fun acc kv => objectSpreadInsert acc kv.1 kv.2) std).lookup a = std.lookup a := by
  induction extras with
  | nil => intro std _; rfl
  | cons kv rest ih =>
    intro std h
    rw [List.foldl_cons, ih _ (fun p hp => h p (List.mem_cons_of_mem kv hp)),
      lookup_objectSpreadInsert_ne std kv.1 kv.2 a (Ne.symm (h kv (List.mem_cons_self kv rest)))]

theorem lookup_foldl_objectSpreadInsert_of_mem (a v : String) (extras : List (String × String)) :
    ∀ std : List (String × String), (extras.map Prod.fst).Nodup → (a, v) ∈ extras →
      (extras.foldl (fun acc kv => objectSpreadInsert acc kv.1 kv.2) std).lookup a = some v := by
  induction extras with
  | nil => intro std _ hmem; cases hmem
  | cons kv rest ih =>
    intro std hnd hmem
    have hnd0 : (kv.1 :: rest.map Prod.fst).Nodup := by simpa using hnd
    rw [List.foldl_cons]
    rcases List.mem_cons.mp hmem with heq | hmem'
    · have hk : kv.1 = a := by rw [← heq]
      have hv : kv.2 = v := by rw [← heq]
      have hnotin : ∀ p ∈ rest, p.1 ≠ a := by
        intro p hp hpa
        exact (List.nodup_cons.mp hnd0).1 (hk ▸ (List.mem_map.mpr ⟨p, hp, hpa⟩))
      rw [lookup_foldl_objectSpreadInsert_of_not_mem a rest _ hnotin, ← hk, ← hv,
        lookup_objectSpreadInsert_self]
    · exact ih _ (List.nodup_cons.mp hnd0).2 hmem'

theorem lookup_append_of_eq_some (a v : String) :
    ∀ (xs ys : List (String × String)), xs.lookup a = some v → (xs ++ ys).lookup a = some v := by
  intro xs ys
  induction xs with
  | nil => intro h; cases h
  | cons p rest ih =>
    obtain ⟨pk, pv⟩ := p
    intro h
    rw [List.cons_append, List.lookup_cons]
    rw [List.lookup_cons] at h
    cases hab : (a == pk) with
    | true => rw [hab] at h; exact h
    | false => rw [hab] at h; exact ih h

/-! ### Claim theorems -/

/-- C9: for every repository response, `getSsoConnectors` returns the
repository's unfiltered persisted count as its first component and, as its
second component, exactly those connectors of the fetched page whose
providerName has a registered capability. -/
theorem getSsoConnectors_count_and_filter (reg : SsoConnectorRegistry)
    (count : Nat) (entities : List SsoConnector) :
    (getSsoConnectors reg count entities).1 = count ∧
    (getSsoConnectors reg count entities).2 =
      entities.filter (fun c => isSupportedSsoConnector reg c) ∧
    ∀ c, c ∈ (getSsoConnectors reg count entities).2 ↔
      (c ∈ entities ∧ isSupportedSsoConnector reg c = true) := by
  refine ⟨rfl, rfl, fun c => ?_⟩
  simp [getSsoConnectors, List.mem_filter]

/-- C4: a persisted connector is returned by `getAvailableSsoConnectors`
iff a capability is registered for its providerName, that capability's
config validator accepts the stored config, and its domain list is
non-empty; in particular a connector with an empty domain list is never
returned even when its config is valid. -/
theorem getAvailableSsoConnectors_mem_iff (reg : SsoConnectorRegistry)
    (entities : List SsoConnector) (c : SsoConnector) :
    c ∈ getAvailableSsoConnectors reg entities ↔
      (c ∈ entities ∧
        (∃ factory, reg c.providerName = some factory ∧ factory.configGuard c.config = true) ∧
        c.domains ≠ []) := by
  cases hreg : reg c.providerName with
  | none =>
    simp [getAvailableSsoConnectors, getSsoConnectors, isSupportedSsoConnector,
      List.mem_filter, hreg]
  | some factory =>
    simp [getAvailableSsoConnectors, getSsoConnectors, isSupportedSsoConnector,
      List.mem_filter, hreg, List.length_pos, and_assoc]

/-- C5: `getSsoConnectorById` fails with the 404 `connector.not_found`
error both when no record exists for the id and when the record's provider
has no registered capability — the identical error value, so the two cases
are indistinguishable to the caller — and returns the connector
otherwise. -/
theorem getSsoConnectorById_cases (reg : SsoConnectorRegistry)
    (store : List SsoConnector) (id : String) :
    (store.find? (fun c => c.id == id) = none →
      getSsoConnectorById reg store id = Except.error connectorNotFoundError) ∧
    (∀ c, store.find? (fun c => c.id == id) = some c →
      isSupportedSsoConnector reg c = false →
      getSsoConnectorById reg store id = Except.error connectorNotFoundError) ∧
    (∀ c, store.find? (fun c => c.id == id) = some c →
      isSupportedSsoConnector reg c = true →
      getSsoConnectorById reg store id = Except.ok c) := by
  refine ⟨fun h => ?_, fun c hc hsup => ?_, fun c hc hsup => ?_⟩
  · simp [getSsoConnectorById, ssoConnectorsFindById, h]
  · simp [getSsoConnectorById, ssoConnectorsFindById, hc, hsup]
  · simp [getSsoConnectorById, ssoConnectorsFindById, hc, hsup]

/-- C5 (witness): on an empty store every id is not-found. -/
theorem getSsoConnectorById_cases_witness :
    getSsoConnectorById (fun _ => none) [] "c1" = Except.error connectorNotFoundError :=
  (getSsoConnectorById_cases (fun _ => none) [] "c1").1 rfl

/-- C6: `createSsoConnectorIdpInitiatedAuthConfig` propagates the
not-found failure of the application lookup (in particular the not-found
error when the table has no application for `defaultApplicationId`),
rejects an application that is not first-party traditional with the
invalid-application-type error, and hands the config to the repository
insert exactly when the application is a first-party traditional
application. -/
theorem createSsoConnectorIdpInitiatedAuthConfig_cases (f : FindApplication)
    (data : SsoConnectorIdpInitiatedAuthConfig) :
    (∀ e, f data.defaultApplicationId = Except.error e →
      createSsoConnectorIdpInitiatedAuthConfig f data = Except.error e) ∧
    (∀ apps, apps.find? (fun a => a.id == data.defaultApplicationId) = none →
      createSsoConnectorIdpInitiatedAuthConfig (findApplicationByIdIn apps) data =
        Except.error applicationNotFoundError) ∧
    (∀ app, f data.defaultApplicationId = Except.ok app →
      ¬(app.type = ApplicationType.traditional ∧ app.isThirdParty = false) →
      createSsoConnectorIdpInitiatedAuthConfig f data =
        Except.error invalidApplicationTypeError) ∧
    (∀ app, f data.defaultApplicationId = Except.ok app →
      app.type = ApplicationType.traditional → app.isThirdParty = false →
      createSsoConnectorIdpInitiatedAuthConfig f data = Except.ok data) := by
  refine ⟨fun e he => ?_, fun apps happs => ?_, fun app hok hty => ?_, fun app hok ht h3 => ?_⟩
  · simp [createSsoConnectorIdpInitiatedAuthConfig, he]
  · simp [createSsoConnectorIdpInitiatedAuthConfig, findApplicationByIdIn, happs]
  · have hb : (app.type == ApplicationType.traditional && !app.isThirdParty) = false := by
      cases hbt : (app.type == ApplicationType.traditional) with
      | false => simp [hbt]
      | true =>
        have h1 : app.type = ApplicationType.traditional := beq_iff_eq.mp hbt
        have h2 : app.isThirdParty = true := by
          cases hthird : app.isThirdParty with
          | true => rfl
          | false => exact absurd ⟨h1, hthird⟩ hty
        simp [hbt, h2]
    simp [createSsoConnectorIdpInitiatedAuthConfig, hok, hb]
  · simp [createSsoConnectorIdpInitiatedAuthConfig, hok, ht, h3]

/-- C6 (witness): creating a config for a first-party traditional
application succeeds and hands the config to the repository insert. -/
theorem createSsoConnectorIdpInitiatedAuthConfig_cases_witness :
    createSsoConnectorIdpInitiatedAuthConfig
        (findApplicationByIdIn
          [{ id := "a1", type := ApplicationType.traditional, isThirdParty := false,
             oidcClientMetadata := { redirectUris := ["https://app.example/cb"] } }])
        { connectorId := "c1", defaultApplicationId := "a1", redirectUri := none,
          authParameters := { scope := none, extras := [] } } =
      Except.ok { connectorId := "c1", defaultApplicationId := "a1", redirectUri := none,
                  authParameters := { scope := none, extras := [] } } :=
  (createSsoConnectorIdpInitiatedAuthConfig_cases
      (findApplicationByIdIn
        [{ id := "a1", type := ApplicationType.traditional, isThirdParty := false,
           oidcClientMetadata := { redirectUris := ["https://app.example/cb"] } }])
      { connectorId := "c1", defaultApplicationId := "a1", redirectUri := none,
        authParameters := { scope := none, extras := [] } }).2.2.2
    { id := "a1", type := ApplicationType.traditional, isThirdParty := false,
      oidcClientMetadata := { redirectUris := ["https://app.example/cb"] } }
    rfl rfl rfl

/-- C7 (amended): the application existence and first-party-traditional
validation runs iff `defaultApplicationId` is present in the partial
update with a non-empty value — the source guards it with the JS
truthiness test `if (defaultApplicationId)` — and otherwise the
repository update command is issued directly, independent of the
application-lookup collaborator. -/
theorem updateSsoConnectorIdpInitiatedAuthConfig_validation (f g : FindApplication)
    (connectorId : String) (set : IdpInitiatedAuthConfigSetFields) :
    (jsTruthy set.defaultApplicationId = false →
      updateSsoConnectorIdpInitiatedAuthConfig f connectorId set =
        Except.ok { set := set, whereConnectorId := connectorId, jsonbMode := "replace" } ∧
      updateSsoConnectorIdpInitiatedAuthConfig f connectorId set =
        updateSsoConnectorIdpInitiatedAuthConfig g connectorId set) ∧
    (∀ appId, set.defaultApplicationId = some appId → appId ≠ "" →
      (∀ e, f appId = Except.error e →
        updateSsoConnectorIdpInitiatedAuthConfig f connectorId set = Except.error e) ∧
      (∀ app, f appId = Except.ok app →
        ¬(app.type = ApplicationType.traditional ∧ app.isThirdParty = false) →
        updateSsoConnectorIdpInitiatedAuthConfig f connectorId set =
          Except.error invalidApplicationTypeError) ∧
      (∀ app, f appId = Except.ok app →
        app.type = ApplicationType.traditional → app.isThirdParty = false →
        updateSsoConnectorIdpInitiatedAuthConfig f connectorId set =
          Except.ok { set := set, whereConnectorId := connectorId, jsonbMode := "replace" })) := by
  constructor
  · intro hfalse
    cases hd : set.defaultApplicationId with
    | none =>
      constructor
      · simp [updateSsoConnectorIdpInitiatedAuthConfig, hd]
      · simp [updateSsoConnectorIdpInitiatedAuthConfig, hd]
    | some appId =>
      rw [hd] at hfalse
      have hempty : (appId == "") = true := by
        rw [jsTruthy] at hfalse
        cases hb : (appId == "") with
        | true => rfl
        | false => rw [hb] at hfalse; simp at hfalse
      constructor
      · simp [updateSsoConnectorIdpInitiatedAuthConfig, hd, hempty]
      · simp [updateSsoConnectorIdpInitiatedAuthConfig, hd, hempty]
  · intro appId hd hne
    have hempty : (appId == "") = false := beq_eq_false_iff_ne.mpr hne
    refine ⟨fun e he => ?_, fun app hok hty => ?_, fun app hok ht h3 => ?_⟩
    · simp [updateSsoConnectorIdpInitiatedAuthConfig, hd, hempty, he]
    · have hb : (app.type == ApplicationType.traditional && !app.isThirdParty) = false := by
        cases hbt : (app.type == ApplicationType.traditional) with
        | false => simp [hbt]
        | true =>
          have h1 : app.type = ApplicationType.traditional := beq_iff_eq.mp hbt
          have h2 : app.isThirdParty = true := by
            cases hthird : app.isThirdParty with
            | true => rfl
            | false => exact absurd ⟨h1, hthird⟩ hty
          simp [hbt, h2]
      simp [updateSsoConnectorIdpInitiatedAuthConfig, hd, hempty, hok, hb]
    · simp [updateSsoConnectorIdpInitiatedAuthConfig, hd, hempty, hok, ht, h3]

/-- C7 (witness): an update that does not carry `defaultApplicationId`
issues the repository update command directly even though the lookup
collaborator would fail on every id. -/
theorem updateSsoConnectorIdpInitiatedAuthConfig_validation_witness :
    updateSsoConnectorIdpInitiatedAuthConfig (fun _ => Except.error applicationNotFoundError) "c1"
        { defaultApplicationId := none, redirectUri := some "https://cb", authParameters := none } =
      Except.ok { set := { defaultApplicationId := none, redirectUri := some "https://cb",
                           authParameters := none },
                  whereConnectorId := "c1", jsonbMode := "replace" } :=
  ((updateSsoConnectorIdpInitiatedAuthConfig_validation
      (fun _ => Except.error applicationNotFoundError)
      (fun _ => Except.error applicationNotFoundError) "c1"
      { defaultApplicationId := none, redirectUri := some "https://cb",
        authParameters := none }).1 rfl).1

/-- C7 (counterexample): a partial update whose `defaultApplicationId` is
present but equal to the empty string skips the application validation
entirely — the update succeeds although the lookup collaborator has no
application at all — refuting "the validation runs if and only if
defaultApplicationId is present". -/
theorem updateSsoConnectorIdpInitiatedAuthConfig_empty_id_skips_validation :
    updateSsoConnectorIdpInitiatedAuthConfig (fun _ => Except.error applicationNotFoundError) "c1"
        { defaultApplicationId := some "", redirectUri := none, authParameters := none } =
      Except.ok { set := { defaultApplicationId := some "", redirectUri := none,
                           authParameters := none },
                  whereConnectorId := "c1", jsonbMode := "replace" } ∧
    ({ defaultApplicationId := some "", redirectUri := none, authParameters := none } :
        IdpInitiatedAuthConfigSetFields).defaultApplicationId.isSome = true ∧
    (fun _ => (Except.error applicationNotFoundError : Except RequestError Application)) "" =
      Except.error applicationNotFoundError :=
  ⟨rfl, rfl, rfl⟩

/-- C3 (amended): the persisted session carries the freshly generated id,
the given connectorId and the assertion content verbatim, and the
operation consults no connector store; its `expiresAt` is the parsed
`conditions.notOnOrAfter` when that condition is present with a non-empty
(JS-truthy) value, and the creation time plus the default TTL when it is
absent or empty. -/
theorem createIdpInitiatedSamlSsoSession_spec (dateValueOf : String → Int)
    (generatedId : String) (now : Int) (connectorId : String)
    (content : SsoSamlAssertionContent) :
    (createIdpInitiatedSamlSsoSession dateValueOf generatedId now connectorId content).id =
      generatedId ∧
    (createIdpInitiatedSamlSsoSession dateValueOf generatedId now connectorId content).connectorId =
      connectorId ∧
    (createIdpInitiatedSamlSsoSession dateValueOf generatedId now connectorId
        content).assertionContent = content ∧
    (∀ t, content.conditions.bind (fun c => c.notOnOrAfter) = some t → t ≠ "" →
      (createIdpInitiatedSamlSsoSession dateValueOf generatedId now connectorId
          content).expiresAt = dateValueOf t) ∧
    (jsTruthy (content.conditions.bind (fun c => c.notOnOrAfter)) = false →
      (createIdpInitiatedSamlSsoSession dateValueOf generatedId now connectorId
          content).expiresAt = now + defaultIdPInitiatedSamlSsoSessionTtl) := by
  refine ⟨rfl, rfl, rfl, fun t ht htne => ?_, fun hfalse => ?_⟩
  · have hempty : (t == "") = false := beq_eq_false_iff_ne.mpr htne
    simp [createIdpInitiatedSamlSsoSession, ht, hempty]
  · cases hd : content.conditions.bind (fun c => c.notOnOrAfter) with
    | none => simp [createIdpInitiatedSamlSsoSession, hd]
    | some t =>
      rw [hd] at hfalse
      have hempty : (t == "") = true := by
        rw [jsTruthy] at hfalse
        cases hb : (t == "") with
        | true => rfl
        | false => rw [hb] at hfalse; simp at hfalse
      simp [createIdpInitiatedSamlSsoSession, hd, hempty]

/-- C3 (witness): a session created from an assertion whose notOnOrAfter
is present and non-empty expires exactly at the parsed condition. -/
theorem createIdpInitiatedSamlSsoSession_spec_witness :
    (createIdpInitiatedSamlSsoSession (fun _ => 1700000000000) "sid" 1000 "c1"
        { payload := "assertion",
          conditions := some { notBefore := none,
                               notOnOrAfter := some "2023-11-14T22:13:20Z" } }).expiresAt =
      1700000000000 :=
  (createIdpInitiatedSamlSsoSession_spec (fun _ => 1700000000000) "sid" 1000 "c1"
      { payload := "assertion",
        conditions := some { notBefore := none,
                             notOnOrAfter := some "2023-11-14T22:13:20Z" } }).2.2.2.1
    "2023-11-14T22:13:20Z" rfl (by decide)

/-- C3 (counterexample): an assertion whose `conditions.notOnOrAfter` is
present but equal to the empty string falls back to creation time plus the
default TTL instead of the parsed condition value — the source's ternary
tests JS truthiness, not presence (and `new Date("")` has no
epoch-millisecond value). -/
theorem createIdpInitiatedSamlSsoSession_empty_notOnOrAfter :
    (createIdpInitiatedSamlSsoSession (fun _ => 0) "sid" 1000 "c1"
        { payload := "assertion",
          conditions := some { notBefore := none, notOnOrAfter := some "" } }).expiresAt =
      1000 + defaultIdPInitiatedSamlSsoSessionTtl ∧
    ({ payload := "assertion",
       conditions := some { notBefore := none, notOnOrAfter := some "" } } :
        SsoSamlAssertionContent).conditions.bind (fun c => c.notOnOrAfter) = some "" ∧
    (fun _ => (0 : Int)) "" ≠ 1000 + defaultIdPInitiatedSamlSsoSessionTtl :=
  ⟨rfl, rfl, by decide⟩

/-- C2 (amended): the resolved redirect URI is `authConfig.redirectUri`
whenever that field is non-null (the `??` is nullish coalescing, so even
an empty string short-circuits the fallback); when the field is null the
resolved value is the first registered redirect URI of the default
application, with any failure of that lookup swallowed to "no value"
rather than propagated; the operation fails — always and only with the
invalid-redirect-URI error — exactly when the resolved value is absent or
empty (the source's `!redirectUri` truthiness test). -/
theorem getIdpInitiatedSamlSsoSignInUrl_redirect_resolution (f : FindApplication)
    (issuer : String) (cfg : SsoConnectorIdpInitiatedAuthConfig) :
    (∀ r, cfg.redirectUri = some r → resolveRedirectUri f cfg = some r) ∧
    (cfg.redirectUri = none →
      resolveRedirectUri f cfg =
        ((f cfg.defaultApplicationId).toOption.bind
          (fun app => app.oidcClientMetadata.redirectUris.head?))) ∧
    ((∃ e, getIdpInitiatedSamlSsoSignInUrl f issuer cfg = Except.error e) ↔
      jsTruthy (resolveRedirectUri f cfg) = false) ∧
    (∀ e, getIdpInitiatedSamlSsoSignInUrl f issuer cfg = Except.error e →
      e = invalidRedirectUriError) := by
  refine ⟨fun r hr => ?_, fun hr => ?_, ?_, ?_⟩
  · simp [resolveRedirectUri, hr]
  · rw [resolveRedirectUri, hr]
    cases hf : f cfg.defaultApplicationId with
    | ok app => simp [Except.toOption]
    | error e => simp [Except.toOption]
  · cases hres : resolveRedirectUri f cfg with
    | none =>
      have hurl : getIdpInitiatedSamlSsoSignInUrl f issuer cfg =
          Except.error invalidRedirectUriError := by
        rw [getIdpInitiatedSamlSsoSignInUrl, hres]
      rw [hurl]
      simp [jsTruthy]
    | some r =>
      cases hempty : (r == "") with
      | true =>
        have hurl : getIdpInitiatedSamlSsoSignInUrl f issuer cfg =
            Except.error invalidRedirectUriError := by
          rw [getIdpInitiatedSamlSsoSignInUrl, hres]
          simp [hempty]
        rw [hurl]
        simp [jsTruthy, hempty]
      | false =>
        have hurl : getIdpInitiatedSamlSsoSignInUrl f issuer cfg =
            Except.ok { base := issuer ++ "/auth",
                        query := (cfg.authParameters.extras.foldl
                            (fun acc kv => objectSpreadInsert acc kv.1 kv.2)
                            (standardSignInQuery cfg r)) ++
                          [(queryKeyScope,
                            withReservedScopes (requestedScopeTokens cfg.authParameters.scope))] } := by
          rw [getIdpInitiatedSamlSsoSignInUrl, hres]
          simp [hempty]
        rw [hurl]
        simp [jsTruthy, hempty]
  · intro e he
    cases hres : resolveRedirectUri f cfg with
    | none =>
      have hurl : getIdpInitiatedSamlSsoSignInUrl f issuer cfg =
          Except.error invalidRedirectUriError := by
        rw [getIdpInitiatedSamlSsoSignInUrl, hres]
      rw [hurl] at he
      exact ((Except.error.injEq _ _).mp he).symm
    | some r =>
      cases hempty : (r == "") with
      | true =>
        have hurl : getIdpInitiatedSamlSsoSignInUrl f issuer cfg =
            Except.error invalidRedirectUriError := by
          rw [getIdpInitiatedSamlSsoSignInUrl, hres]
          simp [hempty]
        rw [hurl] at he
        exact ((Except.error.injEq _ _).mp he).symm
      | false =>
        have hurl : getIdpInitiatedSamlSsoSignInUrl f issuer cfg =
            Except.ok { base := issuer ++ "/auth",
                        query := (cfg.authParameters.extras.foldl
                            (fun acc kv => objectSpreadInsert acc kv.1 kv.2)
                            (standardSignInQuery cfg r)) ++
                          [(queryKeyScope,
                            withReservedScopes (requestedScopeTokens cfg.authParameters.scope))] } := by
          rw [getIdpInitiatedSamlSsoSignInUrl, hres]
          simp [hempty]
        rw [hurl] at he
        cases he

/-- C2 (amended, witness): with `redirectUri` unset and a default
application whose first registered redirect URI exists, the resolved value
is that first entry even though a second entry exists. -/
theorem getIdpInitiatedSamlSsoSignInUrl_redirect_resolution_witness :
    resolveRedirectUri
        (fun _ => Except.ok { id := "a1", type := ApplicationType.traditional,
                              isThirdParty := false,
                              oidcClientMetadata :=
                                { redirectUris := ["https://app.example/cb", "https://other"] } })
        { connectorId := "c1", defaultApplicationId := "a1", redirectUri := none,
          authParameters := { scope := none, extras := [] } } =
      ((fun _ => (Except.ok { id := "a1", type := ApplicationType.traditional,
                              isThirdParty := false,
                              oidcClientMetadata :=
                                { redirectUris := ["https://app.example/cb", "https://other"] } } :
          Except RequestError Application)) "a1").toOption.bind
        (fun app => app.oidcClientMetadata.redirectUris.head?) :=
  (getIdpInitiatedSamlSsoSignInUrl_redirect_resolution
      (fun _ => Except.ok { id := "a1", type := ApplicationType.traditional,
                            isThirdParty := false,
                            oidcClientMetadata :=
                              { redirectUris := ["https://app.example/cb", "https://other"] } })
      "https://issuer.example"
      { connectorId := "c1", defaultApplicationId := "a1", redirectUri := none,
        authParameters := { scope := none, extras := [] } }).2.1 rfl

/-- C2 (counterexample): with `redirectUri` set to the empty string the
operation raises the invalid-redirect-URI error even though the config has
a redirect URI set and the default application's first registered redirect
URI exists: `""` short-circuits the `??` fallback but fails the
`!redirectUri` truthiness check, so an error is raised although both paths
could yield a redirect URI. -/
theorem getIdpInitiatedSamlSsoSignInUrl_empty_redirectUri :
    getIdpInitiatedSamlSsoSignInUrl
        (fun _ => Except.ok { id := "a1", type := ApplicationType.traditional,
                              isThirdParty := false,
                              oidcClientMetadata :=
                                { redirectUris := ["https://app.example/cb"] } })
        "https://issuer.example"
        { connectorId := "c1", defaultApplicationId := "a1", redirectUri := some "",
          authParameters := { scope := none, extras := [] } } =
      Except.error invalidRedirectUriError ∧
    ({ connectorId := "c1", defaultApplicationId := "a1", redirectUri := some "",
       authParameters := { scope := none, extras := [] } } :
        SsoConnectorIdpInitiatedAuthConfig).redirectUri = some "" ∧
    ({ id := "a1", type := ApplicationType.traditional, isThirdParty := false,
       oidcClientMetadata := { redirectUris := ["https://app.example/cb"] } } :
        Application).oidcClientMetadata.redirectUris.head? = some "https://app.example/cb" :=
  ⟨rfl, rfl, rfl⟩

/-- C1 (amended): for every authConfig whose redirect URI resolves to a
non-empty value and whose non-scope authParameters collide with no
standard query key, the result is `<issuer>/auth` with a query carrying
exactly: `client_id` = defaultApplicationId, `redirect_uri` = the
resolved URI, `response_type` = "code", `prompt` = "login", the direct
sign-in key with value "sso:" ++ connectorId, every non-scope
authParameters entry verbatim, and the normalized scope key appended at
the end.  (A colliding authParameters key overwrites the standard entry
instead — see the counterexample.) -/
theorem getIdpInitiatedSamlSsoSignInUrl_query_exact (f : FindApplication)
    (issuer : String) (cfg : SsoConnectorIdpInitiatedAuthConfig) (r : String)
    (hr : resolveRedirectUri f cfg = some r) (hne : r ≠ "")
    (hnd : (cfg.authParameters.extras.map Prod.fst).Nodup)
    (hdisj : ∀ p ∈ cfg.authParameters.extras,
      p.1 ∉ [queryKeyClientId, queryKeyRedirectUri, queryKeyResponseType,
             queryKeyPrompt, queryKeyDirectSignIn]) :
    getIdpInitiatedSamlSsoSignInUrl f issuer cfg =
      Except.ok { base := issuer ++ "/auth",
                  query := [(queryKeyClientId, cfg.defaultApplicationId),
                            (queryKeyRedirectUri, r),
                            (queryKeyResponseType, "code"),
                            (queryKeyPrompt, promptLogin),
                            (queryKeyDirectSignIn, "sso" ++ ":" ++ cfg.connectorId)] ++
                    cfg.authParameters.extras ++
                    [(queryKeyScope,
                      withReservedScopes (requestedScopeTokens cfg.authParameters.scope))] } := by
  have hempty : (r == "") = false := beq_eq_false_iff_ne.mpr hne
  have hdisj' : ∀ p ∈ cfg.authParameters.extras,
      ∀ q ∈ standardSignInQuery cfg r, p.1 ≠ q.1 := by
    intro p hp q hq
    have hnot := hdisj p hp
    simp only [List.mem_cons, List.not_mem_nil, or_false, not_or] at hnot
    simp only [standardSignInQuery, List.mem_cons, List.not_mem_nil, or_false] at hq
    rcases hq with rfl | rfl | rfl | rfl | rfl
    · exact hnot.1
    · exact hnot.2.1
    · exact hnot.2.2.1
    · exact hnot.2.2.2.1
    · exact hnot.2.2.2.2
  have hstep : getIdpInitiatedSamlSsoSignInUrl f issuer cfg =
      Except.ok { base := issuer ++ "/auth",
                  query := (cfg.authParameters.extras.foldl
                      (fun acc kv => objectSpreadInsert acc kv.1 kv.2)
                      (standardSignInQuery cfg r)) ++
                    [(queryKeyScope,
                      withReservedScopes (requestedScopeTokens cfg.authParameters.scope))] } := by
    rw [getIdpInitiatedSamlSsoSignInUrl, hr]
    simp [hempty]
  rw [hstep,
    foldl_objectSpreadInsert_disjoint cfg.authParameters.extras
      (standardSignInQuery cfg r) hnd hdisj',
    standardSignInQuery, List.append_assoc]

/-- C1 (amended, witness): a concrete config with one extra auth
parameter and a requested scope yields exactly the expected query. -/
theorem getIdpInitiatedSamlSsoSignInUrl_query_exact_witness :
    getIdpInitiatedSamlSsoSignInUrl (fun _ => Except.error applicationNotFoundError)
        "https://issuer.example"
        { connectorId := "c1", defaultApplicationId := "a1",
          redirectUri := some "https://cb",
          authParameters := { scope := some "custom", extras := [("foo", "bar")] } } =
      Except.ok { base := "https://issuer.example/auth",
                  query := [("client_id", "a1"),
                            ("redirect_uri", "https://cb"),
                            ("response_type", "code"),
                            ("prompt", "login"),
                            ("direct_sign_in", "sso:c1"),
                            ("foo", "bar"),
                            ("scope", "openid offline_access profile custom")] } :=
  getIdpInitiatedSamlSsoSignInUrl_query_exact
    (fun _ => Except.error applicationNotFoundError) "https://issuer.example"
    { connectorId := "c1", defaultApplicationId := "a1", redirectUri := some "https://cb",
      authParameters := { scope := some "custom", extras := [("foo", "bar")] } }
    "https://cb" rfl (by decide) (by decide) (by decide)

/-- C1 (counterexample): with authParameters carrying `client_id` = "x"
the issued URL's `client_id` is "x", not the defaultApplicationId "a1" —
the object spread overwrites the standard entry, so the query does not
carry `client_id` equal to defaultApplicationId as claimed. -/
theorem getIdpInitiatedSamlSsoSignInUrl_client_id_overridden :
    (getIdpInitiatedSamlSsoSignInUrl (fun _ => Except.error applicationNotFoundError)
        "https://issuer.example"
        { connectorId := "c1", defaultApplicationId := "a1",
          redirectUri := some "https://cb",
          authParameters := { scope := none, extras := [("client_id", "x")] } }).map
      (fun u => u.query.lookup "client_id") = Except.ok (some "x") ∧
    ("x" : String) ≠ "a1" :=
  ⟨rfl, by decide⟩

/-- C10: when the non-scope authParameters carry a key equal to one of the
standard query keys, the authParameters value silently replaces the
standard value: the issued URL's query value at that key is the
authParameters value. -/
theorem getIdpInitiatedSamlSsoSignInUrl_extras_override (f : FindApplication)
    (issuer : String) (cfg : SsoConnectorIdpInitiatedAuthConfig) (r k v : String)
    (hr : resolveRedirectUri f cfg = some r) (hne : r ≠ "")
    (hnd : (cfg.authParameters.extras.map Prod.fst).Nodup)
    (_hstd : k ∈ [queryKeyClientId, queryKeyRedirectUri, queryKeyResponseType,
                  queryKeyPrompt, queryKeyDirectSignIn])
    (hkv : (k, v) ∈ cfg.authParameters.extras) :
    ∃ u, getIdpInitiatedSamlSsoSignInUrl f issuer cfg = Except.ok u ∧
      u.query.lookup k = some v := by
  have hempty : (r == "") = false := beq_eq_false_iff_ne.mpr hne
  have hstep : getIdpInitiatedSamlSsoSignInUrl f issuer cfg =
      Except.ok { base := issuer ++ "/auth",
                  query := (cfg.authParameters.extras.foldl
                      (fun acc kv => objectSpreadInsert acc kv.1 kv.2)
                      (standardSignInQuery cfg r)) ++
                    [(queryKeyScope,
                      withReservedScopes (requestedScopeTokens cfg.authParameters.scope))] } := by
    rw [getIdpInitiatedSamlSsoSignInUrl, hr]
    simp [hempty]
  refine ⟨_, hstep, ?_⟩
  exact lookup_append_of_eq_some k v _ _
    (lookup_foldl_objectSpreadInsert_of_mem k v cfg.authParameters.extras
      (standardSignInQuery cfg r) hnd hkv)

/-- C10 (witness): authParameters `client_id` = "x" ends up as the URL's
`client_id` value. -/
theorem getIdpInitiatedSamlSsoSignInUrl_extras_override_witness :
    ∃ u, getIdpInitiatedSamlSsoSignInUrl (fun _ => Except.error applicationNotFoundError)
        "https://issuer.example"
        { connectorId := "c1", defaultApplicationId := "a1",
          redirectUri := some "https://cb",
          authParameters := { scope := none, extras := [("client_id", "x")] } } =
      Except.ok u ∧ u.query.lookup "client_id" = some "x" :=
  getIdpInitiatedSamlSsoSignInUrl_extras_override
    (fun _ => Except.error applicationNotFoundError) "https://issuer.example"
    { connectorId := "c1", defaultApplicationId := "a1", redirectUri := some "https://cb",
      authParameters := { scope := none, extras := [("client_id", "x")] } }
    "https://cb" "client_id" "x" rfl (by decide) (by decide) (by decide) (by decide)

/-- C8: on success, the scope query value is the requested scope string
split on spaces (the empty token list when no scope is configured) passed
through the reserved-scope normalizer and re-joined; the normalized token
list contains every requested token and every reserved scope with no
duplicates, and the scope entry is appended after all other query
parameters. -/
theorem getIdpInitiatedSamlSsoSignInUrl_scope_normalization (f : FindApplication)
    (issuer : String) (cfg : SsoConnectorIdpInitiatedAuthConfig) (u : SignInUrl)
    (h : getIdpInitiatedSamlSsoSignInUrl f issuer cfg = Except.ok u) :
    ∃ front,
      u.query = front ++
        [(queryKeyScope,
          joinWithSpace (withReservedScopesTokens
            (requestedScopeTokens cfg.authParameters.scope)))] ∧
      (∀ s ∈ requestedScopeTokens cfg.authParameters.scope,
        s ∈ withReservedScopesTokens (requestedScopeTokens cfg.authParameters.scope)) ∧
      (∀ s ∈ reservedScopes,
        s ∈ withReservedScopesTokens (requestedScopeTokens cfg.authParameters.scope)) ∧
      (withReservedScopesTokens (requestedScopeTokens cfg.authParameters.scope)).Nodup := by
  cases hres : resolveRedirectUri f cfg with
  | none =>
    rw [getIdpInitiatedSamlSsoSignInUrl, hres] at h
    simp at h
  | some r =>
    cases hempty : (r == "") with
    | true =>
      have hurl : getIdpInitiatedSamlSsoSignInUrl f issuer cfg =
          Except.error invalidRedirectUriError := by
        rw [getIdpInitiatedSamlSsoSignInUrl, hres]
        simp [hempty]
      rw [hurl] at h
      simp at h
    | false =>
      have hurl : getIdpInitiatedSamlSsoSignInUrl f issuer cfg =
          Except.ok { base := issuer ++ "/auth",
                      query := (cfg.authParameters.extras.foldl
                          (fun acc kv => objectSpreadInsert acc kv.1 kv.2)
                          (standardSignInQuery cfg r)) ++
                        [(queryKeyScope,
                          withReservedScopes (requestedScopeTokens cfg.authParameters.scope))] } := by
        rw [getIdpInitiatedSamlSsoSignInUrl, hres]
        simp [hempty]
      rw [hurl] at h
      have hu := (Except.ok.injEq _ _).mp h
      refine ⟨cfg.authParameters.extras.foldl (fun acc kv => objectSpreadInsert acc kv.1 kv.2)
          (standardSignInQuery cfg r), ?_, ?_, ?_, ?_⟩
      · rw [← hu]
        rfl
      · intro s hs
        rw [mem_withReservedScopesTokens]
        exact List.mem_append_right _ hs
      · intro s hs
        rw [mem_withReservedScopesTokens]
        exact List.mem_append_left _ hs
      · exact nodup_withReservedScopesTokens _

/-- C8 (witness): requesting scope "custom" yields a normalized token list
containing both the requested token and the reserved scopes. -/
theorem getIdpInitiatedSamlSsoSignInUrl_scope_normalization_witness :
    "custom" ∈ withReservedScopesTokens (requestedScopeTokens (some "custom")) ∧
    "openid" ∈ withReservedScopesTokens (requestedScopeTokens (some "custom")) := by
  obtain ⟨front, hq, hrequested, hreserved, hnodup⟩ :=
    getIdpInitiatedSamlSsoSignInUrl_scope_normalization
      (fun _ => Except.error applicationNotFoundError) "https://issuer.example"
      { connectorId := "c1", defaultApplicationId := "a1", redirectUri := some "https://cb",
        authParameters := { scope := some "custom", extras := [] } }
      { base := "https://issuer.example/auth",
        query := [("client_id", "a1"), ("redirect_uri", "https://cb"),
                  ("response_type", "code"), ("prompt", "login"),
                  ("direct_sign_in", "sso:c1"),
                  ("scope", "openid offline_access profile custom")] } rfl
  exact ⟨hrequested "custom" (by decide), hreserved "openid" (by decide)⟩
